import Mathlib

/-!
Verification of the text-structuring engine of the apiCamara repository
(TextParser and the document-processing service of leiService.ts),
shallowly embedded as executable Lean functions over lists of characters.

Regex passes are modelled by dedicated scanning functions that reproduce
the JavaScript regex semantics (leftmost match, greedy quantifiers with
the standard backtracking preference order, ASCII word classes) for the
specific patterns of the source.  Scanning functions take a fuel argument
so that all definitions are structurally recursive and kernel-reducible;
the wrappers supply fuel larger than the input length, which is always
sufficient because every step consumes at least one character.
-/

set_option maxRecDepth 100000
set_option synthInstance.maxSize 1024
set_option maxHeartbeats 2000000

namespace ApiCamara

/-- JavaScript whitespace class as used by the patterns of the source
(only the common members are needed by the modelled inputs). -/
def isWs (c : Char) : Bool :=
  c = ' ' || c = '\t' || c = '\n' || c = '\r' || c = '\x0b' || c = '\x0c'

def isDigitC (c : Char) : Bool := '0' ≤ c && c ≤ '9'

/-- JavaScript word class for the \b boundary and \w: ASCII letters, digits, underscore. -/
def isWordC (c : Char) : Bool :=
  ('a' ≤ c && c ≤ 'z') || ('A' ≤ c && c ≤ 'Z') || isDigitC c || c = '_'

/-- The ordinal-glyph class of the source patterns: masculine ordinal and degree sign. -/
def isOrdGlyph (c : Char) : Bool := c = 'º' || c = '°'

/-- Letter class of the source pattern A-Za-zÀ-ÿ (the full Latin-1 block as written). -/
def isLatinLetter (c : Char) : Bool :=
  ('A' ≤ c && c ≤ 'Z') || ('a' ≤ c && c ≤ 'z') || ('À' ≤ c && c ≤ 'ÿ')

/-- Lowercasing used for case-insensitive matching: ASCII plus the Latin-1
uppercase letters (JavaScript /i canonicalization on these letters). -/
def toLowerC (c : Char) : Char :=
  if 'A' ≤ c && c ≤ 'Z' then Char.ofNat (c.toNat + 32)
  else if 'À' ≤ c && c ≤ 'Þ' && c ≠ '×' then Char.ofNat (c.toNat + 32)
  else c

def ciEq (c d : Char) : Bool := toLowerC c = toLowerC d

/-- Case-insensitive literal match: strips the pattern (given lowercase) from
the front of the input, returning the rest on success. -/
def stripCI : List Char → List Char → Option (List Char)
  | [], l => some l
  | _ :: _, [] => none
  | p :: ps, c :: cs => if toLowerC c = p then stripCI ps cs else none

def stripCIs (pat : String) (l : List Char) : Option (List Char) :=
  stripCI pat.data l

/-- Mandatory whitespace followed by greedy whitespace absorption. -/
def ws1 : List Char → Option (List Char)
  | [] => none
  | c :: cs => if isWs c then some (cs.dropWhile isWs) else none

def skipWs (l : List Char) : List Char := l.dropWhile isWs

def jsTrimChars (l : List Char) : List Char :=
  ((l.dropWhile isWs).reverse.dropWhile isWs).reverse

def jsTrim (s : String) : String := String.mk (jsTrimChars s.data)

/-! ## The normalizer cleanText, pass by pass.

Source: TextParser.cleanText.  Each pass models one global regex replace.
The fuel argument bounds the number of scanning steps; each step consumes
at least one input character, so fuel = length + 1 always suffices. -/

/-- Pass 1: [\r\t]+ to a single space. -/
def pass1 : Nat → List Char → List Char
  | 0, l => l
  | _ + 1, [] => []
  | n + 1, c :: rest =>
    if c = '\r' || c = '\t' then
      ' ' :: pass1 n (rest.dropWhile (fun d => d = '\r' || d = '\t'))
    else c :: pass1 n rest

/-- Pass 2: word-boundary n, optional dot, greedy whitespace, replaced by
the canonical marker.  The boolean argument records whether the previous
source character was a word character (for \b). -/
def pass2 : Nat → Bool → List Char → List Char
  | 0, _, l => l
  | _ + 1, _, [] => []
  | n + 1, prevW, c :: rest =>
    if !prevW && (c = 'n' || c = 'N') then
      match rest with
      | '.' :: t => 'n' :: 'º' :: ' ' :: pass2 n false (t.dropWhile isWs)
      | _ =>
        let wsRun := rest.takeWhile isWs
        if wsRun.isEmpty then
          'n' :: 'º' :: ' ' :: pass2 n true rest
        else
          'n' :: 'º' :: ' ' :: pass2 n false (rest.dropWhile isWs)
    else c :: pass2 n (isWordC c) rest

/-- Pass 3: word-boundary n followed by the degree sign and whitespace. -/
def pass3 : Nat → Bool → List Char → List Char
  | 0, _, l => l
  | _ + 1, _, [] => []
  | n + 1, prevW, c :: rest =>
    if !prevW && (c = 'n' || c = 'N') then
      match rest with
      | '°' :: t => 'n' :: 'º' :: ' ' :: pass3 n false (t.dropWhile isWs)
      | _ => c :: pass3 n true rest
    else c :: pass3 n (isWordC c) rest

/-- Pass 4: word-boundary n, whitespace, ordinal glyph, whitespace. -/
def pass4 : Nat → Bool → List Char → List Char
  | 0, _, l => l
  | _ + 1, _, [] => []
  | n + 1, prevW, c :: rest =>
    if !prevW && (c = 'n' || c = 'N') then
      match rest.dropWhile isWs with
      | 'º' :: t => 'n' :: 'º' :: ' ' :: pass4 n false (t.dropWhile isWs)
      | _ => c :: pass4 n true rest
    else c :: pass4 n (isWordC c) rest

/-- Pass 5: word-boundary n, ordinal glyph, then one or more glyphs or spaces. -/
def pass5 : Nat → Bool → List Char → List Char
  | 0, _, l => l
  | _ + 1, _, [] => []
  | n + 1, prevW, c :: rest =>
    if !prevW && (c = 'n' || c = 'N') then
      match rest with
      | 'º' :: t =>
        let run := t.takeWhile (fun d => isOrdGlyph d || isWs d)
        if run.isEmpty then c :: pass5 n true rest
        else 'n' :: 'º' :: ' ' :: pass5 n false (t.drop run.length)
      | _ => c :: pass5 n true rest
    else c :: pass5 n (isWordC c) rest

/-- Pass 6: digits, whitespace, ordinal glyph, normalized to digits + masculine ordinal. -/
def pass6 : Nat → List Char → List Char
  | 0, l => l
  | _ + 1, [] => []
  | n + 1, c :: rest =>
    if isDigitC c then
      let run := c :: rest.takeWhile isDigitC
      let after := rest.drop (run.length - 1)
      match after.dropWhile isWs with
      | g :: t =>
        if isOrdGlyph g then run ++ 'º' :: pass6 n t
        else run ++ pass6 n after
      | [] => run ++ pass6 n after
    else c :: pass6 n rest

/-- Pass 7: an ordinal glyph wedged between two letters is removed together
with the surrounding spaces; scanning resumes after the second letter,
exactly as the JavaScript global replace does. -/
def pass7 : Nat → List Char → List Char
  | 0, l => l
  | _ + 1, [] => []
  | n + 1, c :: rest =>
    if isLatinLetter c then
      match (rest.dropWhile isWs) with
      | g :: t =>
        if isOrdGlyph g then
          match t.dropWhile isWs with
          | d :: t2 =>
            if isLatinLetter d then c :: d :: pass7 n t2
            else c :: pass7 n rest
          | [] => c :: pass7 n rest
        else c :: pass7 n rest
      | [] => c :: pass7 n rest
    else c :: pass7 n rest

/-- Pass 8: word-boundary n, whitespace, glyph, mandatory whitespace, letter. -/
def pass8 : Nat → Bool → List Char → List Char
  | 0, _, l => l
  | _ + 1, _, [] => []
  | n + 1, prevW, c :: rest =>
    if !prevW && (c = 'n' || c = 'N') then
      match rest.dropWhile isWs with
      | g :: t =>
        if isOrdGlyph g then
          match ws1 t with
          | some t2 =>
            match t2 with
            | d :: t3 =>
              if isLatinLetter d then c :: d :: pass8 n true t3
              else c :: pass8 n true rest
            | [] => c :: pass8 n true rest
          | none => c :: pass8 n true rest
        else c :: pass8 n true rest
      | [] => c :: pass8 n true rest
    else c :: pass8 n (isWordC c) rest

/-- Index of the last newline of a list, if any. -/
def lastNlIdx : List Char → Option Nat
  | [] => none
  | c :: t =>
    match lastNlIdx t with
    | some k => some (k + 1)
    | none => if c = '\n' then some 0 else none

/-- Pass 9: a whitespace run ending in a newline collapses to that newline
(the match needs at least one whitespace character before the final newline). -/
def pass9 : Nat → List Char → List Char
  | 0, l => l
  | _ + 1, [] => []
  | n + 1, c :: rest =>
    if isWs c then
      let run := c :: rest.takeWhile isWs
      let rem := rest.drop (run.length - 1)
      match lastNlIdx run with
      | some k =>
        if k ≥ 1 then '\n' :: pass9 n (run.drop (k + 1) ++ rem)
        else run ++ pass9 n rem
      | none => run ++ pass9 n rem
    else c :: pass9 n rest

/-- Pass 10: three or more consecutive newlines collapse to exactly two. -/
def pass10 : Nat → List Char → List Char
  | 0, l => l
  | _ + 1, [] => []
  | n + 1, c :: rest =>
    if c = '\n' then
      let run := c :: rest.takeWhile (fun d => d = '\n')
      let rem := rest.drop (run.length - 1)
      if run.length ≥ 3 then '\n' :: '\n' :: pass10 n rem
      else run ++ pass10 n rem
    else c :: pass10 n rest

/-- TextParser.cleanText: the ten replacement passes followed by trim. -/
def cleanText (text : String) : String :=
  let l0 := text.data
  let l1 := pass1 (l0.length + 1) l0
  let l2 := pass2 (l1.length + 1) false l1
  let l3 := pass3 (l2.length + 1) false l2
  let l4 := pass4 (l3.length + 1) false l3
  let l5 := pass5 (l4.length + 1) false l4
  let l6 := pass6 (l5.length + 1) l5
  let l7 := pass7 (l6.length + 1) l6
  let l8 := pass8 (l7.length + 1) false l7
  let l9 := pass9 (l8.length + 1) l8
  let l10 := pass10 (l9.length + 1) l9
  String.mk (jsTrimChars l10)

/-! ## Line matchers for the structural patterns of TextParser.PATTERNS.

Each matcher reproduces one anchored regex of the source on a single line.
The backtracking behaviour of each pattern is deterministic (established by
case analysis on the character classes involved), so the matchers are
written as straight-line scanners. -/

/-- Character class of the number part of the title patterns: digits, dot,
comma, slash, hyphen. -/
def isNumClass (c : Char) : Bool :=
  isDigitC c || c = '.' || c = ',' || c = '/' || c = '-'

/-- Roman-numeral class with the /i flag: IVXLCDM in either case. -/
def isRomanC (c : Char) : Bool :=
  let d := toLowerC c
  d = 'i' || d = 'v' || d = 'x' || d = 'l' || d = 'c' || d = 'd' || d = 'm'

def isDashC (c : Char) : Bool := c = '-' || c = '–' || c = '—'

def isAsciiLetter (c : Char) : Bool :=
  ('a' ≤ c && c ≤ 'z') || ('A' ≤ c && c ≤ 'Z')

/-- Shared tail of the artigo pattern: captures digits with an optional
ordinal glyph, then optional whitespace, an optional dash, whitespace,
and the rest of the line. -/
def numTail (r : List Char) : Option (String × String) :=
  let ds := r.takeWhile isDigitC
  if ds.isEmpty then none
  else
    let r2 := r.drop ds.length
    match r2 with
    | g :: t =>
      if isOrdGlyph g then
        let r4 := skipWs t
        let r5 := match r4 with
          | d :: t2 => if isDashC d then t2 else r4
          | [] => r4
        some (String.mk (ds ++ [g]), String.mk (skipWs r5))
      else
        let r4 := skipWs r2
        let r5 := match r4 with
          | d :: t2 => if isDashC d then t2 else r4
          | [] => r4
        some (String.mk ds, String.mk (skipWs r5))
    | [] => some (String.mk ds, "")

/-- Pattern artigo: Art., Art or Artigo, then a number with optional ordinal
glyph, optional dash, and the remaining text. -/
def artigoM (line : String) : Option (String × String) :=
  let l := line.data
  match stripCIs "art" l with
  | some r1 =>
    let r2 := match r1 with
      | '.' :: t => t
      | _ => r1
    match numTail (skipWs r2) with
    | some res => some res
    | none =>
      match stripCIs "artigo" l with
      | some ra =>
        match ws1 ra with
        | some rb => numTail rb
        | none => none
      | none => none
  | none => none

/-- Pattern paragrafo: a section sign with a captured number, or the literal
Parágrafo único; returns the optional number group and the rest. -/
def paragrafoM (line : String) : Option (Option String × String) :=
  let l := line.data
  match l with
  | '§' :: t =>
    let r := skipWs t
    let ds := r.takeWhile isDigitC
    if ds.isEmpty then none
    else
      let r2 := r.drop ds.length
      let (cap, r3) := match r2 with
        | g :: t2 => if isOrdGlyph g then (ds ++ [g], t2) else (ds, r2)
        | [] => (ds, ([] : List Char))
      let r4 := skipWs r3
      let r5 := match r4 with
        | d :: t2 => if isDashC d then t2 else r4
        | [] => r4
      some (some (String.mk cap), String.mk (skipWs r5))
  | _ =>
    match stripCIs "parágrafo" l with
    | some r1 =>
      match ws1 r1 with
      | some r2 =>
        match stripCIs "único" r2 with
        | some r3 =>
          let r4 := skipWs r3
          let r5 := match r4 with
            | d :: t2 => if isDashC d then t2 else r4
            | [] => r4
          some (none, String.mk (skipWs r5))
        | none => none
      | none => none
    | none => none

/-- Pattern inciso: a maximal roman-numeral run, whitespace, one of the
punctuation marks dash, en dash, em dash, dot or closing parenthesis,
whitespace, rest. -/
def incisoM (line : String) : Option (String × String) :=
  let l := line.data
  let run := l.takeWhile isRomanC
  if run.isEmpty then none
  else
    match skipWs (l.drop run.length) with
    | p :: t =>
      if isDashC p || p = '.' || p = ')' then
        some (String.mk run, String.mk (skipWs t))
      else none
    | [] => none

/-- Pattern alinea: a single ASCII letter, whitespace, one of closing
parenthesis, dot or hyphen, whitespace, rest. -/
def alineaM (line : String) : Option (String × String) :=
  match line.data with
  | c :: t =>
    if isAsciiLetter c then
      match skipWs t with
      | p :: t2 =>
        if p = ')' || p = '.' || p = '-' then
          some (String.mk [c], String.mk (skipWs t2))
        else none
      | [] => none
    else none
  | [] => none

/-- Pattern item: a maximal digit run, whitespace, one of closing
parenthesis, dot or hyphen, whitespace, rest. -/
def itemM (line : String) : Option (String × String) :=
  let l := line.data
  let run := l.takeWhile isDigitC
  if run.isEmpty then none
  else
    match skipWs (l.drop run.length) with
    | p :: t =>
      if p = ')' || p = '.' || p = '-' then
        some (String.mk run, String.mk (skipWs t))
      else none
    | [] => none

/-- Pattern capitulo: the word capítulo (with or without the accent), a
roman-numeral or digit run closed by a word boundary, an optional dot,
whitespace, an optional dash or colon, and the captured name. -/
def capituloM (line : String) : Option (String × String) :=
  let l := line.data
  match stripCIs "cap" l with
  | some r1 =>
    let r2 := match r1 with
      | c :: t => if toLowerC c = 'í' || toLowerC c = 'i' then some t else none
      | [] => none
    match r2 with
    | some r3 =>
      match stripCIs "tulo" r3 with
      | some r4 =>
        match ws1 r4 with
        | some r5 =>
          let roman := r5.takeWhile isRomanC
          let numRun := if roman.isEmpty then r5.takeWhile isDigitC else roman
          if numRun.isEmpty then none
          else
            let r6 := r5.drop numRun.length
            let boundaryOk := match r6 with
              | c :: _ => !isWordC c
              | [] => true
            if !boundaryOk then none
            else
              let r7 := match r6 with
                | '.' :: t => t
                | _ => r6
              let r8 := skipWs r7
              let r9 := match r8 with
                | d :: t => if isDashC d || d = ':' then t else r8
                | [] => r8
              some (String.mk numRun, String.mk (skipWs r9))
        | none => none
      | none => none
    | none => none
  | none => none

/-! ## Title patterns.

The number part of every title pattern is n with an optional ordinal glyph,
whitespace, and a non-empty run over the number class.  The trailing
optional date group of the source patterns can never participate in a
match: the greedy number class always absorbs the comma the group would
need, and since the group is optional the regex engine succeeds without
backtracking into the number run.  The matchers therefore end the match
at the number run, exactly as the JavaScript engine does. -/

/-- The n-number part of the title patterns; returns the remaining input. -/
def nNum (r : List Char) : Option (List Char) :=
  match r with
  | c :: t =>
    if c = 'n' || c = 'N' then
      let t1 := match t with
        | g :: t2 => if isOrdGlyph g then t2 else t
        | [] => t
      let t2 := skipWs t1
      let run := t2.takeWhile isNumClass
      if run.isEmpty then none else some (t2.drop run.length)
    else none
  | [] => none

/-- The consumed prefix of a successful match, recovered from the lengths. -/
def matchedOf (l rem : List Char) : String :=
  String.mk (l.take (l.length - rem.length))

/-- Sequence a phrase of case-insensitively matched words separated by
mandatory whitespace. -/
def phrase : List String → List Char → Option (List Char)
  | [], l => some l
  | [w], l => stripCIs w l
  | w :: ws, l =>
    match stripCIs w l with
    | some r =>
      match ws1 r with
      | some r2 => phrase ws r2
      | none => none
    | none => none

def tituloViaPhrase (words : List String) (line : String) : Option String :=
  let l := line.data
  match phrase words l with
  | some r1 =>
    match ws1 r1 with
    | some r2 =>
      match nNum r2 with
      | some rem => some (matchedOf l rem)
      | none => none
    | none => none
  | none => none

/-- Pattern tituloLeiComplementar. -/
def tituloLeiComplementarM (line : String) : Option String :=
  tituloViaPhrase ["lei", "complementar"] line

/-- Pattern tituloResolucao: resolu, c or ç, a or ã, o, then the number part. -/
def tituloResolucaoM (line : String) : Option String :=
  let l := line.data
  let step1 := stripCIs "resolu" l
  let step2 := match step1 with
    | some (c :: t) => if toLowerC c = 'c' || toLowerC c = 'ç' then some t else none
    | _ => none
  let step3 := match step2 with
    | some (c :: t) => if toLowerC c = 'a' || toLowerC c = 'ã' then some t else none
    | _ => none
  let step4 := match step3 with
    | some (c :: t) => if toLowerC c = 'o' then some t else none
    | _ => none
  match step4 with
  | some r1 =>
    match ws1 r1 with
    | some r2 =>
      match nNum r2 with
      | some rem => some (matchedOf l rem)
      | none => none
    | none => none
  | none => none

/-- Pattern tituloDecretoLegislativo. -/
def tituloDecretoLegislativoM (line : String) : Option String :=
  tituloViaPhrase ["decreto", "legislativo"] line

/-- Pattern tituloProjetoLeiComplementar. -/
def tituloProjetoLeiComplementarM (line : String) : Option String :=
  tituloViaPhrase ["projeto", "de", "lei", "complementar"] line

/-- Single-word alternation used by the amendment patterns: à or a. -/
def aWord (l : List Char) : Option (List Char) :=
  match l with
  | c :: t => if toLowerC c = 'à' || toLowerC c = 'a' then some t else none
  | [] => none

def tituloEmendaTail (l : List Char) (r : List Char) : Option String :=
  match aWord r with
  | some r1 =>
    match ws1 r1 with
    | some r2 =>
      match phrase ["lei", "complementar"] r2 with
      | some r3 =>
        match ws1 r3 with
        | some r4 =>
          match nNum r4 with
          | some rem => some (matchedOf l rem)
          | none => none
        | none => none
      | none => none
    | none => none
  | none => none

/-- Pattern tituloProjetoEmendaLeiComplementar. -/
def tituloProjetoEmendaLeiComplementarM (line : String) : Option String :=
  let l := line.data
  match phrase ["projeto", "de", "emenda"] l with
  | some r1 =>
    match ws1 r1 with
    | some r2 => tituloEmendaTail l r2
    | none => none
  | none => none

/-- Pattern tituloEmendaLeiComplementar. -/
def tituloEmendaLeiComplementarM (line : String) : Option String :=
  let l := line.data
  match stripCIs "emenda" l with
  | some r1 =>
    match ws1 r1 with
    | some r2 => tituloEmendaTail l r2
    | none => none
  | none => none

/-- Pattern tituloLei: Lei, Decreto, Medida Provisória or Emenda
Constitucional (the latter two with a literal space, as in the source),
whitespace, an optional Legislativo, and the number part. -/
def tituloLeiM (line : String) : Option String :=
  let l := line.data
  let kw :=
    match stripCIs "lei" l with
    | some r => some r
    | none =>
      match stripCIs "decreto" l with
      | some r => some r
      | none =>
        match stripCIs "medida provisória" l with
        | some r => some r
        | none => stripCIs "emenda constitucional" l
  match kw with
  | some r1 =>
    match ws1 r1 with
    | some r2 =>
      let withLeg :=
        match stripCIs "legislativo" r2 with
        | some r3 =>
          match ws1 r3 with
          | some r4 => nNum r4
          | none => none
        | none => none
      match withLeg with
      | some rem => some (matchedOf l rem)
      | none =>
        match nNum r2 with
        | some rem => some (matchedOf l rem)
        | none => none
    | none => none
  | none => none

/-! ## The autógrafo header pattern AUTOGRAFO_HEADER. -/

/-- One attempt of the bounded-greedy junk part of the autógrafo pattern:
exactly j junk characters, then whitespace and the captured number run. -/
def autoTryK (t1 : List Char) : Nat → Option (String × List Char)
  | 0 =>
    let r := skipWs t1
    let run := r.takeWhile isNumClass
    if run.isEmpty then none else some (String.mk run, r.drop run.length)
  | j + 1 =>
    let r := skipWs (t1.drop (j + 1))
    let run := r.takeWhile isNumClass
    if run.isEmpty then autoTryK t1 j else some (String.mk run, r.drop run.length)

/-- The bounded-greedy part of the autógrafo pattern: up to six non-digit
characters, preferring more, then whitespace and a non-empty run over the
number class (the capture group). -/
def autoNumAfterN (k : Nat) (t1 : List Char) : Option (String × List Char) :=
  let pre := t1.takeWhile (fun c => !isDigitC c)
  autoTryK t1 (min k pre.length)

/-- The number part of the autógrafo pattern: whitespace, an optional group
of n with junk characters, and the captured number run; falls back to a
direct number run when the n-group cannot complete. -/
def autoNum (r : List Char) : Option (String × List Char) :=
  let r1 := skipWs r
  let direct := fun (u : List Char) =>
    let run := u.takeWhile isNumClass
    if run.isEmpty then none else some (String.mk run, u.drop run.length)
  match r1 with
  | c :: t =>
    if c = 'n' || c = 'N' then
      match autoNumAfterN 6 (skipWs t) with
      | some res => some res
      | none => direct r1
    else direct r1
  | [] => none

/-- AUTOGRAFO_HEADER: leading whitespace, autógrafo or autografo with an
optional plural s, de lei, an optional complementar, and the captured
number.  Returns the capture and whether the complementar branch matched. -/
def autografoM (line : String) : Option (String × Bool) :=
  let l := line.data
  let r0 := skipWs l
  let afterAut := match stripCIs "aut" r0 with
    | some (c :: t) =>
      if toLowerC c = 'ó' || toLowerC c = 'o' then stripCIs "grafo" t else none
    | _ => none
  match afterAut with
  | some r1 =>
    let r2 := match r1 with
      | c :: t => if toLowerC c = 's' then t else r1
      | [] => r1
    let core := match ws1 r2 with
      | some r3 =>
        match stripCIs "de" r3 with
        | some r4 =>
          match ws1 r4 with
          | some r5 => stripCIs "lei" r5
          | none => none
        | none => none
      | none => none
    match core with
    | some r6 =>
      let compPath :=
        match ws1 r6 with
        | some r7 =>
          match stripCIs "complementar" r7 with
          | some r8 =>
            match autoNum r8 with
            | some (cap, _) => some cap
            | none => none
          | none => none
        | none => none
      match compPath with
      | some cap => some (cap, true)
      | none =>
        match autoNum r6 with
        | some (cap, _) => some (cap, false)
        | none => none
    | none => none
  | none => none

/-! ## Title, number and date extraction (extractTitleAndNumber, parseDate). -/

inductive Tipo where
  | LEI
  | COMPLEMENTAR
  | RESOLUCAO
deriving DecidableEq

/-- A date built as new Date(year, monthIndex, day): the month index is
zero-based, exactly as stored by the source. -/
structure DateYMD where
  year : Nat
  monthIdx : Nat
  day : Nat
deriving DecidableEq

/-- One attempt of the unanchored number regex of extractTitleAndNumber at
a fixed position: n, optional ordinal glyph, whitespace, captured run. -/
def nNumCap (r : List Char) : Option String :=
  match r with
  | c :: t =>
    if c = 'n' || c = 'N' then
      let t1 := match t with
        | g :: t2 => if isOrdGlyph g then t2 else t
        | [] => t
      let t2 := skipWs t1
      let run := t2.takeWhile isNumClass
      if run.isEmpty then none else some (String.mk run)
    else none
  | [] => none

/-- Leftmost match of the unanchored number regex. -/
def findNum : Nat → List Char → Option String
  | 0, _ => none
  | _ + 1, [] => none
  | n + 1, c :: t =>
    match nNumCap (c :: t) with
    | some run => some run
    | none => findNum n t

/-- The number extracted from a matched title, with the sentinel fallback. -/
def numeroOf (titulo : String) : String :=
  match findNum (titulo.data.length + 1) titulo.data with
  | some run => run
  | none => "Número não identificado"

/-- TextParser.extractTitleAndNumber: the ordered chain of title patterns. -/
def extractTitleAndNumber (line : String) : Option (String × String × Tipo) :=
  match tituloLeiComplementarM line with
  | some m =>
    let titulo := jsTrim m
    some (titulo, "LC " ++ numeroOf titulo, Tipo.COMPLEMENTAR)
  | none =>
  match tituloResolucaoM line with
  | some m =>
    let titulo := jsTrim m
    some (titulo, "RES " ++ numeroOf titulo, Tipo.RESOLUCAO)
  | none =>
  match tituloDecretoLegislativoM line with
  | some m =>
    let titulo := jsTrim m
    some (titulo, numeroOf titulo, Tipo.LEI)
  | none =>
  match tituloProjetoLeiComplementarM line with
  | some m =>
    let titulo := jsTrim m
    some (titulo, "LC " ++ numeroOf titulo, Tipo.COMPLEMENTAR)
  | none =>
  match tituloProjetoEmendaLeiComplementarM line with
  | some m =>
    let titulo := jsTrim m
    some (titulo, "LC " ++ numeroOf titulo, Tipo.COMPLEMENTAR)
  | none =>
  match tituloEmendaLeiComplementarM line with
  | some m =>
    let titulo := jsTrim m
    some (titulo, "LC " ++ numeroOf titulo, Tipo.COMPLEMENTAR)
  | none =>
  match tituloLeiM line with
  | some m =>
    let titulo := jsTrim m
    some (titulo, numeroOf titulo, Tipo.LEI)
  | none =>
  match autografoM line with
  | some (cap, isComplementar) =>
    let numero := if jsTrim cap = "" then "Número não identificado" else jsTrim cap
    let tituloLabel :=
      "Autógrafo de Lei" ++ (if isComplementar then " Complementar" else "") ++ " nº " ++ numero
    some (tituloLabel,
          if isComplementar then "LC " ++ numero else numero,
          if isComplementar then Tipo.COMPLEMENTAR else Tipo.LEI)
  | none => none

def parseIntNat (ds : List Char) : Nat :=
  ds.foldl (fun a c => a * 10 + (c.toNat - 48)) 0

/-- The fixed month table MESES (zero-based indices). -/
def monthIdxOf (m : String) : Option Nat :=
  if m = "janeiro" then some 0
  else if m = "fevereiro" then some 1
  else if m = "março" then some 2
  else if m = "abril" then some 3
  else if m = "maio" then some 4
  else if m = "junho" then some 5
  else if m = "julho" then some 6
  else if m = "agosto" then some 7
  else if m = "setembro" then some 8
  else if m = "outubro" then some 9
  else if m = "novembro" then some 10
  else if m = "dezembro" then some 11
  else none

/-- One attempt of the date pattern at a fixed position: de, one or two
digits, de, a word, de, four digits; returns day, raw month word, year. -/
def tryDateAt (l : List Char) : Option (Nat × String × Nat) :=
  match stripCIs "de" l with
  | some r1 =>
    match ws1 r1 with
    | some r2 =>
      let ds := r2.takeWhile isDigitC
      if ds.isEmpty || ds.length > 2 then none
      else
        match ws1 (r2.drop ds.length) with
        | some r3 =>
          match stripCIs "de" r3 with
          | some r4 =>
            match ws1 r4 with
            | some r5 =>
              let mo := r5.takeWhile isWordC
              if mo.isEmpty then none
              else
                match ws1 (r5.drop mo.length) with
                | some r6 =>
                  match stripCIs "de" r6 with
                  | some r7 =>
                    match ws1 r7 with
                    | some r8 =>
                      let ys := r8.take 4
                      if ys.length = 4 && ys.all isDigitC then
                        some (parseIntNat ds, String.mk mo, parseIntNat ys)
                      else none
                    | none => none
                  | none => none
                | none => none
            | none => none
          | none => none
        | none => none
    | none => none
  | none => none

/-- Leftmost match of the date pattern over the line. -/
def findDate : Nat → List Char → Option (Nat × String × Nat)
  | 0, _ => none
  | _ + 1, [] => none
  | n + 1, c :: t =>
    match tryDateAt (c :: t) with
    | some res => some res
    | none => findDate n t

/-- TextParser.parseDate: leftmost structural match, then the month lookup;
an unrecognized month name yields no date. -/
def parseDate (line : String) : Option DateYMD :=
  match findDate (line.data.length + 1) line.data with
  | some (day, mo, year) =>
    match monthIdxOf (String.mk (mo.data.map toLowerC)) with
    | some mi => some ⟨year, mi, day⟩
    | none => none
  | none => none

/-- TextParser.isStructuralElement: any of the six structural patterns tests true. -/
def isStructuralElement (line : String) : Bool :=
  (artigoM line).isSome || (paragrafoM line).isSome || (incisoM line).isSome ||
  (alineaM line).isSome || (itemM line).isSome || (capituloM line).isSome

/-! ## Data model (src/types): the parse-tree structures. -/

structure ItemStructure where
  numero : String
  texto : String
  ordem : Nat
deriving DecidableEq

structure AlineaStructure where
  numero : String
  texto : String
  ordem : Nat
  itens : List ItemStructure
deriving DecidableEq

structure IncisoStructure where
  numero : String
  texto : String
  ordem : Nat
  alineas : List AlineaStructure
deriving DecidableEq

structure ParagrafoStructure where
  numero : String
  texto : String
  ordem : Nat
  incisos : List IncisoStructure
deriving DecidableEq

structure CapituloStructure where
  ordem : Nat
  numero : Option String
  nome : Option String
deriving DecidableEq

structure ArtigoStructure where
  numero : String
  texto : String
  ordem : Nat
  paragrafos : List ParagrafoStructure
  incisos : List IncisoStructure
  capitulo : Option CapituloStructure
deriving DecidableEq

structure LeiStructure where
  titulo : String
  numero : String
  origem : String
  ementa : Option String
  data : Option DateYMD
  tipo : Option Tipo
  textoCompleto : Option String
  artigos : List ArtigoStructure
deriving DecidableEq

/-! ## The hierarchical parse state machine (parseHierarchicalText).

The JavaScript code pushes every node into its parent list at creation and
mutates it in place afterwards.  The functional model keeps the currently
open node of each level outside its parent list and folds it back in when
it closes; the list lengths read by the ordem computations then coincide
with the JavaScript array lengths at the corresponding moment. -/

/-- Where the currently open inciso was pushed at creation: into the open
paragraph, into the open article, or nowhere (no parent was open). -/
inductive IncAttach where
  | toPar
  | toArt
  | orphan
deriving DecidableEq

structure ParseState where
  titulo : String
  numero : String
  ementa : String
  tipo : Option Tipo
  data : Option DateYMD
  artigos : List ArtigoStructure
  curArt : Option ArtigoStructure
  curPar : Option ParagrafoStructure
  curInc : Option (IncisoStructure × IncAttach)
  curAli : Option AlineaStructure
  curCap : Option CapituloStructure
  capCount : Nat
deriving DecidableEq

def initState : ParseState :=
  ⟨"", "", "", none, none, [], none, none, none, none, none, 0⟩

/-- Fold the open alinea back into the open inciso. -/
def closeAli (s : ParseState) : ParseState :=
  match s.curAli, s.curInc with
  | some a, some (i, att) =>
    { s with curAli := none, curInc := some ({ i with alineas := i.alineas ++ [a] }, att) }
  | some _, none => { s with curAli := none }
  | none, _ => s

/-- Fold the open inciso back into the parent it was pushed into. -/
def closeInc (s : ParseState) : ParseState :=
  match s.curInc with
  | some (i, IncAttach.toPar) =>
    match s.curPar with
    | some p => { s with curInc := none, curPar := some { p with incisos := p.incisos ++ [i] } }
    | none => { s with curInc := none }
  | some (i, IncAttach.toArt) =>
    match s.curArt with
    | some a => { s with curInc := none, curArt := some { a with incisos := a.incisos ++ [i] } }
    | none => { s with curInc := none }
  | some (_, IncAttach.orphan) => { s with curInc := none }
  | none => s

/-- Fold the open paragraph back into the open article. -/
def closePar (s : ParseState) : ParseState :=
  match s.curPar with
  | some p =>
    match s.curArt with
    | some a => { s with curPar := none, curArt := some { a with paragrafos := a.paragrafos ++ [p] } }
    | none => { s with curPar := none }
  | none => s

/-- Fold the open article into the article list. -/
def closeArt (s : ParseState) : ParseState :=
  match s.curArt with
  | some a => { s with curArt := none, artigos := s.artigos ++ [a] }
  | none => s

def closeAll (s : ParseState) : ParseState :=
  closeArt (closePar (closeInc (closeAli s)))

/-- The continuation rule: a line that starts no structure is appended,
space-joined, to the deepest open node, or to the summary buffer. -/
def contLine (s : ParseState) (line : String) : ParseState :=
  match s.curAli with
  | some a => { s with curAli := some { a with texto := a.texto ++ " " ++ line } }
  | none =>
  match s.curInc with
  | some (i, att) => { s with curInc := some ({ i with texto := i.texto ++ " " ++ line }, att) }
  | none =>
  match s.curPar with
  | some p => { s with curPar := some { p with texto := p.texto ++ " " ++ line } }
  | none =>
  match s.curArt with
  | some a => { s with curArt := some { a with texto := a.texto ++ " " ++ line } }
  | none =>
    { s with ementa := if s.ementa = "" then line else s.ementa ++ " " ++ line }

/-- Item branch: requires both captures non-empty and an open alinea. -/
def stItem (s : ParseState) (line : String) : ParseState :=
  match itemM line with
  | some (g1, g2) =>
    if g1 ≠ "" ∧ g2 ≠ "" then
      match s.curAli with
      | some a =>
        let item : ItemStructure := ⟨g1, jsTrim g2, a.itens.length + 1⟩
        { s with curAli := some { a with itens := a.itens ++ [item] } }
      | none => contLine s line
    else contLine s line
  | none => contLine s line

/-- Opening a new alinea inside the open inciso of an already-closed state. -/
def pushAlinea (s1 : ParseState) (g1 g2 : String) : ParseState :=
  match s1.curInc with
  | some (i, att) =>
    { s1 with curInc := some (i, att),
              curAli := some ⟨g1, jsTrim g2, i.alineas.length + 1, []⟩ }
  | none => s1

/-- Alinea branch: requires both captures non-empty and an open inciso. -/
def stAlinea (s : ParseState) (line : String) : ParseState :=
  match alineaM line with
  | some (g1, g2) =>
    if g1 ≠ "" ∧ g2 ≠ "" ∧ s.curInc.isSome then pushAlinea (closeAli s) g1 g2
    else stItem s line
  | none => stItem s line

/-- Inciso branch: the ordem computation reproduces the JavaScript
expression with its falsy-zero fallbacks, and the push target is the open
paragraph, else the open article, else nowhere. -/
def stInciso (s : ParseState) (line : String) : ParseState :=
  match incisoM line with
  | some (g1, g2) =>
    if g1 ≠ "" then
      let s1 := closeInc (closeAli s)
      let lp := match s1.curPar with
        | some p => p.incisos.length
        | none => 0
      let la := match s1.curArt with
        | some a => a.incisos.length
        | none => 0
      let ordem := (if lp ≠ 0 then lp else la) + 1
      let inc : IncisoStructure := ⟨g1, jsTrim g2, ordem, []⟩
      let att :=
        if s1.curPar.isSome then IncAttach.toPar
        else if s1.curArt.isSome then IncAttach.toArt
        else IncAttach.orphan
      { s1 with curInc := some (inc, att), curAli := none }
    else stAlinea s line
  | none => stAlinea s line

/-- Opening a new paragraph inside the open article of an already-closed
state.  The label is the section sign with the captured number, or the
literal Parágrafo único. -/
def pushParagrafo (s1 : ParseState) (og1 : Option String) (g2 : String) : ParseState :=
  match s1.curArt with
  | some a =>
    { s1 with curArt := some a,
              curPar := some ⟨(match og1 with
                               | some g1 => "§" ++ g1
                               | none => "Parágrafo único"),
                              jsTrim g2, a.paragrafos.length + 1, []⟩,
              curInc := none, curAli := none }
  | none => s1

/-- Paragraph branch: only taken with an open article, otherwise the line
falls through to the inciso branch. -/
def stParagrafo (s : ParseState) (line : String) : ParseState :=
  match paragrafoM line with
  | some (og1, g2) =>
    if s.curArt.isSome then pushParagrafo (closePar (closeInc (closeAli s))) og1 g2
    else stInciso s line
  | none => stInciso s line

/-- Article branch. -/
def stArtigo (s : ParseState) (line : String) : ParseState :=
  match artigoM line with
  | some (g1, g2) =>
    if g1 ≠ "" then
      let s1 := closeAll s
      let a : ArtigoStructure :=
        ⟨g1, jsTrim g2, s1.artigos.length + 1, [], [], s1.curCap⟩
      { s1 with curArt := some a, curPar := none, curInc := none, curAli := none }
    else stParagrafo s line
  | none => stParagrafo s line

/-- Chapter branch: opens a fresh chapter and resets everything below it. -/
def stCapitulo (s : ParseState) (line : String) : ParseState :=
  match capituloM line with
  | some (g1, g2) =>
    let s1 := closeAll s
    let nomeRaw := jsTrim g2
    let cap : CapituloStructure :=
      ⟨s1.capCount + 1, if g1 ≠ "" then some g1 else none,
       if nomeRaw ≠ "" then some nomeRaw else none⟩
    { s1 with capCount := s1.capCount + 1, curCap := some cap,
              curArt := none, curPar := none, curInc := none, curAli := none }
  | none => stArtigo s line

/-- Summary rule: with a title but no summary yet, a non-structural line
becomes the summary. -/
def stEmenta (s : ParseState) (line : String) : ParseState :=
  if s.titulo ≠ "" ∧ s.ementa = "" ∧ isStructuralElement line = false then
    { s with ementa := line }
  else stCapitulo s line

/-- One line of the parse loop. -/
def step (s : ParseState) (line : String) : ParseState :=
  match (if s.titulo = "" then extractTitleAndNumber line else none) with
  | some (t, n, tp) =>
    { s with titulo := t, numero := n, tipo := some tp, data := parseDate line }
  | none => stEmenta s line

def splitNlGo : List Char → List Char → List String
  | [], acc => [String.mk acc.reverse]
  | c :: t, acc =>
    if c = '\n' then String.mk acc.reverse :: splitNlGo t []
    else splitNlGo t (c :: acc)

/-- text.split with the newline separator. -/
def splitNl (text : String) : List String := splitNlGo text.data []

/-- Array.join with the newline separator. -/
def joinNl : List String → String
  | [] => ""
  | [s] => s
  | s :: rest => s ++ "\n" ++ joinNl rest

/-- The line sequence of the parser: split, trim, drop empties. -/
def linesOf (text : String) : List String :=
  ((splitNl text).map jsTrim).filter (fun s => decide (s ≠ ""))

/-- Assemble the final LeiStructure with the default title and number. -/
def finalize (s : ParseState) : LeiStructure :=
  let s1 := closeAll s
  { titulo := if s1.titulo = "" then "Título não identificado" else s1.titulo
    numero := if s1.numero = "" then "Número não identificado" else s1.numero
    origem := ""
    ementa := if s1.ementa = "" then none else some s1.ementa
    data := s1.data
    tipo := s1.tipo
    textoCompleto := none
    artigos := s1.artigos }

/-- TextParser.parseHierarchicalText. -/
def parseHierarchicalText (text : String) : LeiStructure :=
  finalize ((linesOf text).foldl step initState)

/-! ## extractEmenta and processExtractedText (DocumentService). -/

/-- One position of the unanchored structural-words test of extractEmenta.
The alternative II dash is subsumed by I dash for the purposes of the
boolean test, since any position matching the former makes the next
position match the latter. -/
def structuralWordAt (l : List Char) : Bool :=
  (stripCIs "art." l).isSome || (stripCIs "artigo" l).isSome ||
  (match stripCIs "cap" l with
   | some (c :: t) =>
     (toLowerC c = 'í' || toLowerC c = 'i') && (stripCIs "tulo" t).isSome
   | _ => false) ||
  (stripCIs "seção" l).isSome ||
  (match l with
   | c :: _ => c = '§'
   | [] => false) ||
  (match l with
   | c :: t =>
     (toLowerC c = 'i') &&
       (match skipWs t with
        | d :: _ => d = '-'
        | [] => false)
   | [] => false)

def hasStructuralWords : Nat → List Char → Bool
  | 0, _ => false
  | _ + 1, [] => false
  | n + 1, c :: t => structuralWordAt (c :: t) || hasStructuralWords n t

/-- TextParser.extractEmenta: a candidate summary is rejected when too
short, too long, or when it contains structural words. -/
def extractEmenta (line : String) : Option String :=
  if line = "" then none
  else if line.data.length < 10 then none
  else if line.data.length > 500 then none
  else if hasStructuralWords (line.data.length + 1) line.data then none
  else some line

/-- DocumentService.processExtractedText: clean, parse, recover a summary
when the parser found none, and fill the fallback title and number. -/
def processExtractedText (extractedText filename : String) : LeiStructure :=
  let cleaned := cleanText extractedText
  let parsed := parseHierarchicalText cleaned
  let ementa := match parsed.ementa with
    | some e => some e
    | none => extractEmenta cleaned
  { titulo := if parsed.titulo = "" then filename else parsed.titulo
    numero := if parsed.numero = "" then "Número não identificado" else parsed.numero
    origem := "upload"
    ementa := ementa
    data := parsed.data
    tipo := parsed.tipo
    textoCompleto := some cleaned
    artigos := parsed.artigos }

/-! ## Segmentation (splitByHeaderPattern, splitByTitleSections). -/

def digitsOnly (s : String) : String := String.mk (s.data.filter isDigitC)

/-- The accumulation loop of splitByHeaderPattern with the default
autógrafo header recognizer: current block, its header number, and the
closed sections so far. -/
def splitHeaderGo : List String → List String → Option String → List String → List String
  | [], cur, _, acc => if cur.isEmpty then acc else acc ++ [jsTrim (joinNl cur)]
  | line :: rest, cur, curNum, acc =>
    match autografoM line with
    | some (cap, _) =>
      let hn := digitsOnly cap
      if cur.isEmpty then
        splitHeaderGo rest [line] (if hn = "" then none else some hn) acc
      else if hn ≠ "" ∧ curNum = some hn then
        splitHeaderGo rest (cur ++ [line]) curNum acc
      else
        splitHeaderGo rest [line] (if hn = "" then none else some hn)
          (acc ++ [jsTrim (joinNl cur)])
    | none => splitHeaderGo rest (cur ++ [line]) curNum acc

/-- The header-pass sections with empties removed. -/
def byHeaderOf (lines : List String) : List String :=
  (splitHeaderGo lines [] none []).filter (fun s => decide (s ≠ ""))

/-- The fallback trigger count: lines matching the ordinary-law,
complementary-law or resolution title patterns (and only those three). -/
def titleCountOf (lines : List String) : Nat :=
  (lines.filter (fun l =>
    (tituloLeiM l).isSome || (tituloLeiComplementarM l).isSome ||
    (tituloResolucaoM l).isSome)).length

/-- The full title test of splitByTitleSections: all seven title patterns. -/
def isTitleLine (l : String) : Bool :=
  (tituloLeiM l).isSome || (tituloLeiComplementarM l).isSome ||
  (tituloResolucaoM l).isSome || (tituloDecretoLegislativoM l).isSome ||
  (tituloProjetoLeiComplementarM l).isSome ||
  (tituloProjetoEmendaLeiComplementarM l).isSome ||
  (tituloEmendaLeiComplementarM l).isSome

/-- The accumulation loop of splitByTitleSections. -/
def splitTitleGo : List String → List String → Bool → List String → List String
  | [], cur, _, acc => if cur.isEmpty then acc else acc ++ [jsTrim (joinNl cur)]
  | line :: rest, cur, started, acc =>
    if isTitleLine line then
      if started then splitTitleGo rest [line] true (acc ++ [jsTrim (joinNl cur)])
      else splitTitleGo rest (cur ++ [line]) true acc
    else splitTitleGo rest (cur ++ [line]) started acc

def splitTitleLines (lines : List String) : List String :=
  (splitTitleGo lines [] false []).filter (fun s => decide (s ≠ ""))

/-- TextParser.splitByTitleSections. -/
def splitByTitleSections (text : String) : List String :=
  splitTitleLines (splitNl text)

/-- TextParser.splitByHeaderPattern on the line list: the header pass, and
the title-based rescan when it produced at most one non-empty block and
more than one line matches the three counted title patterns. -/
def splitByHeaderLines (lines : List String) : List String :=
  let byHeader := byHeaderOf lines
  if byHeader.length ≤ 1 then
    if titleCountOf lines > 1 then splitTitleLines lines else byHeader
  else byHeader

/-- TextParser.splitByHeaderPattern with the default autógrafo recognizer. -/
def splitByHeaderPattern (text : String) : List String :=
  splitByHeaderLines (splitNl text)

/-! ## Deduplication (DocumentService.processWordDocumentMultiple). -/

/-- Uppercasing for the deduplication keys: ASCII and the plain Latin-1
letters (the special JavaScript cases ß and ÿ do not occur in the
modelled inputs). -/
def upperC (c : Char) : Char :=
  if 'a' ≤ c && c ≤ 'z' then Char.ofNat (c.toNat - 32)
  else if 'à' ≤ c && c ≤ 'þ' && c ≠ '÷' then Char.ofNat (c.toNat - 32)
  else c

def upperStr (s : String) : String := String.mk (s.data.map upperC)

def digitChar (n : Nat) : Char := Char.ofNat (48 + n)

def natToStrGo : Nat → Nat → List Char → List Char
  | 0, _, acc => acc
  | f + 1, n, acc =>
    if n < 10 then digitChar n :: acc
    else natToStrGo f (n / 10) (digitChar (n % 10) :: acc)

def natToStr (n : Nat) : String := String.mk (natToStrGo (n + 1) n [])

def pad2 (n : Nat) : String := if n < 10 then "0" ++ natToStr n else natToStr n

def pad4 (n : Nat) : String :=
  if n < 10 then "000" ++ natToStr n
  else if n < 100 then "00" ++ natToStr n
  else if n < 1000 then "0" ++ natToStr n
  else natToStr n

/-- The date part of the deduplication key, rendered as year-month-day
(the ISO date of the stored date; the timezone conversion of the source
is not modelled, as it does not affect key equality of equal dates). -/
def dateKeyOf : Option DateYMD → String
  | none => ""
  | some d => pad4 d.year ++ "-" ++ pad2 (d.monthIdx + 1) ++ "-" ++ pad2 d.day

/-- The deduplication key of processWordDocumentMultiple: digits of the
number with the date when the number has digits, otherwise the marker
with the uppercased trimmed title. -/
def leiKey (lei : LeiStructure) : String :=
  let numNorm := digitsOnly lei.numero
  if numNorm ≠ "" then numNorm ++ "|" ++ dateKeyOf lei.data
  else "no-number|" ++ upperStr (jsTrim lei.titulo)

/-- The seen-set loop of the deduplication (Set.has modelled as list
membership). -/
def dedupGo (seen : List String) : List LeiStructure → List LeiStructure
  | [] => []
  | lei :: rest =>
    if leiKey lei ∈ seen then dedupGo seen rest
    else lei :: dedupGo (leiKey lei :: seen) rest

def dedupeLeis (l : List LeiStructure) : List LeiStructure := dedupGo [] l

/-- Modelled from the spec: keep the first Act of every key, in first
occurrence order.  Used as the specification side of the refinement
theorem for the deduplicator. -/
def firstPerKey : List LeiStructure → List LeiStructure
  | [] => []
  | lei :: rest =>
    lei :: firstPerKey (rest.filter (fun x => decide (leiKey x ≠ leiKey lei)))
termination_by l => l.length
decreasing_by
  simp only [List.length_cons]
  exact Nat.lt_succ_of_le (List.length_filter_le _ _)

/-- The text-processing core of processWordDocumentMultiple, from the
emptiness check to the deduplicated result; blank extracted text raises
the AppError of the source, modelled as the error branch. -/
def processWordDocumentMultipleText (extractedText filename : String) :
    Except String (List LeiStructure) :=
  if jsTrim extractedText = "" then
    Except.error "Não foi possível extrair texto do documento"
  else
    let cleanedText := cleanText extractedText
    let sections := splitByHeaderPattern cleanedText
    let results :=
      if sections.isEmpty then [processExtractedText cleanedText filename]
      else sections.map (fun sec => processExtractedText sec filename)
    Except.ok (dedupeLeis results)

/-! ## Chapter creation of LeiService.saveLei. -/

/-- The chapter deduplication key of saveLei. -/
def capKey (cap : CapituloStructure) : String :=
  natToStr cap.ordem ++ "|" ++ cap.numero.getD "" ++ "|" ++ upperStr (cap.nome.getD "")

/-- The chapter-creation loop of saveLei: one chapter row per unseen key. -/
def chaptersGo : List ArtigoStructure → List String → List CapituloStructure
  | [], _ => []
  | art :: rest, seen =>
    match art.capitulo with
    | none => chaptersGo rest seen
    | some cap =>
      if capKey cap ∈ seen then chaptersGo rest seen
      else cap :: chaptersGo rest (capKey cap :: seen)

/-- The chapters created when saving one Act. -/
def chaptersCreated (leiData : LeiStructure) : List CapituloStructure :=
  chaptersGo leiData.artigos []

/-! ## Fixtures used by the theorems. -/

/-- The canonical fixture text of the specification. -/
def fixtureC1 : String :=
  "LEI Nº 8.080, DE 19 DE SETEMBRO DE 1990\nDispõe sobre saúde.\nArt. 1º Esta lei regula ações de saúde.\n§ 1º Entende-se por saúde o bem-estar.\nI - a promoção;\na) ações de vigilância;\n1. controle de vetores;\nArt. 2º A saúde é direito fundamental."

/-- An article with a direct inciso, then a paragraph, then another inciso. -/
def ordemBugInput : String := "Art. 1º texto\nI - um\n§ 1º par\nII - dois"

/-- A document with preamble lines before the first autógrafo header. -/
def preambleDoc : String :=
  "intro\nAutógrafo de Lei nº 10, de 2020\ncorpo\nAutógrafo de Lei nº 11, de 2020\ncorpo2"

/-- A header-less document with two draft-complementary-law title lines. -/
def plcDoc : String :=
  "Projeto de Lei Complementar Nº 001/2015\nArt. 1º primeiro\nProjeto de Lei Complementar Nº 002/2015\nArt. 1º segundo"

/-- A header-less document with two ordinary-law title lines. -/
def leiDoc : String :=
  "Lei nº 1, de 2020\nArt. 1º um\nLei nº 2, de 2020\nArt. 1º dois"

/-- A document repeating an identical chapter heading. -/
def chapterRepeatDoc : String :=
  "Capítulo I - GERAL\nArt. 1º a\nCapítulo I - GERAL\nArt. 2º b"

/-! ## Claim C1: the canonical fixture round-trip. -/

/-- C1, counterexample: on the canonical fixture the parsed title is not
the lowercase, date-carrying string of the claim, and the parsed number is
not the bare 8.080: the greedy number class of the title pattern keeps the
trailing comma and the optional date group of the pattern never matches,
so the match stops right after the number, preserving the uppercase input. -/
theorem c1_claim_false :
    (parseHierarchicalText (cleanText fixtureC1)).titulo ≠
      "Lei nº 8.080, de 19 de setembro de 1990" ∧
    (parseHierarchicalText (cleanText fixtureC1)).numero ≠ "8.080" := by
  decide

/-- C1, amended: the canonical fixture parses to title LEI nº 8.080, (the
uppercase match truncated after the number run, comma included), number
8.080, (with the trailing comma), ordinary type, date 1990-09-19, summary
Dispõe sobre saúde., and exactly two articles, the first carrying exactly
one paragraph with one inciso with one alinea with one item, all with
sequence index 1, and the second carrying nothing. -/
theorem c1_fixture_amended :
    (parseHierarchicalText (cleanText fixtureC1)).titulo = "LEI nº 8.080," ∧
    (parseHierarchicalText (cleanText fixtureC1)).numero = "8.080," ∧
    (parseHierarchicalText (cleanText fixtureC1)).tipo = some Tipo.LEI ∧
    (parseHierarchicalText (cleanText fixtureC1)).data = some (DateYMD.mk 1990 8 19) ∧
    (parseHierarchicalText (cleanText fixtureC1)).ementa = some "Dispõe sobre saúde." ∧
    (parseHierarchicalText (cleanText fixtureC1)).artigos.map
       (fun a => (a.ordem, a.paragrafos.map
         (fun p => (p.ordem, p.incisos.map
           (fun i => (i.ordem, i.alineas.map
             (fun al => (al.ordem, al.itens.map (fun it => it.ordem))))))))) =
      [(1, [(1, [(1, [(1, [1])])])]), (2, [])] := by
  refine ⟨by decide, by decide, by decide, by decide, by decide, by decide⟩

/-! ## Claim C2: idempotence of the normalizer. -/

/-- C2, counterexample: the letter-glyph-letter removal pass resumes
scanning after the second letter of a match, so overlapping occurrences
survive one run and are removed by the next: cleanText is not idempotent. -/
theorem c2_not_idempotent :
    cleanText (cleanText "aºbºc") ≠ cleanText "aºbºc" := by
  decide

/-- C2, amended: re-running the normalizer is a no-op on the canonical
fixture of the specification, though not on every string. -/
theorem c2_fixture_idempotent :
    cleanText (cleanText fixtureC1) = cleanText fixtureC1 := by
  decide

/-! ## Claim C3: 1-based strictly increasing sequence indices. -/

/-- C3, evaluation at the failing input: an article with one direct
inciso, then a paragraph, then an inciso inside that paragraph.  The
paragraph's first inciso receives ordem 2, because the JavaScript ordem
expression treats the zero length of the paragraph's inciso list as
missing and falls back to the article's inciso count. -/
theorem c3_ordem_bug_eval :
    (parseHierarchicalText (cleanText ordemBugInput)).artigos.map
      (fun a => (a.incisos.map (fun i => i.ordem),
                 a.paragrafos.map (fun p => p.incisos.map (fun i => i.ordem)))) =
    [([1], [[2]])] := by
  decide

/-! ## Claim C4: the deduplicator. -/

/-- The seen-set loop of the deduplicator equals the first-per-key
specification applied to the input with the already-seen keys removed. -/
theorem dedupGo_eq_firstPerKey (l : List LeiStructure) :
    ∀ seen : List String,
      dedupGo seen l = firstPerKey (l.filter (fun x => decide (leiKey x ∉ seen))) := by
  induction l with
  | nil => intro seen; simp [dedupGo, firstPerKey]
  | cons a rest ih =>
    intro seen
    by_cases hs : leiKey a ∈ seen
    · rw [show dedupGo seen (a :: rest) = dedupGo seen rest by
        simp [dedupGo, hs]]
      rw [show (a :: rest).filter (fun x => decide (leiKey x ∉ seen)) =
            rest.filter (fun x => decide (leiKey x ∉ seen)) by
        simp [List.filter_cons, hs]]
      exact ih seen
    · rw [show dedupGo seen (a :: rest) =
            a :: dedupGo (leiKey a :: seen) rest by
        simp [dedupGo, hs]]
      rw [show (a :: rest).filter (fun x => decide (leiKey x ∉ seen)) =
            a :: rest.filter (fun x => decide (leiKey x ∉ seen)) by
        simp [List.filter_cons, hs]]
      rw [firstPerKey, ih (leiKey a :: seen)]
      have hfil : (rest.filter (fun x => decide (leiKey x ∉ seen))).filter
            (fun x => decide (leiKey x ≠ leiKey a)) =
          rest.filter (fun x => decide (leiKey x ∉ leiKey a :: seen)) := by
        rw [List.filter_filter]
        apply List.filter_congr
        intro x _
        by_cases h1 : leiKey x = leiKey a <;> by_cases h2 : leiKey x ∈ seen <;>
          simp [h1, h2]
      rw [hfil]

theorem strAppendCancel (s t u : String) (h : s ++ t = s ++ u) : t = u := by
  have hd : (s ++ t).data = (s ++ u).data := by rw [h]
  rw [String.data_append, String.data_append] at hd
  exact String.ext (List.append_cancel_left hd)

/-- C4: the deduplicator keeps exactly the first Act per key in
first-occurrence order (equality with the first-per-key specification);
in particular two Acts with the same digit-normalized non-empty number and
the same date collapse to the first, and two Acts without digits in their
numbers but with different uppercased titles are both kept. -/
theorem c4_dedup (l : List LeiStructure) (a b c d : LeiStructure)
    (ha : digitsOnly a.numero ≠ "")
    (hab : digitsOnly b.numero = digitsOnly a.numero)
    (hdat : b.data = a.data)
    (hc : digitsOnly c.numero = "")
    (hd : digitsOnly d.numero = "")
    (ht : upperStr (jsTrim c.titulo) ≠ upperStr (jsTrim d.titulo)) :
    dedupeLeis l = firstPerKey l ∧
    dedupeLeis [a, b] = [a] ∧
    dedupeLeis [c, d] = [c, d] := by
  refine ⟨?_, ?_, ?_⟩
  · have h := dedupGo_eq_firstPerKey l []
    simpa [dedupeLeis] using h
  · have hkey : leiKey b = leiKey a := by
      have hb' : digitsOnly b.numero ≠ "" := by rw [hab]; exact ha
      simp only [leiKey]
      rw [if_pos ha, if_pos hb', hab, hdat]
    simp [dedupeLeis, dedupGo, hkey]
  · have hkey : leiKey d ≠ leiKey c := by
      simp only [leiKey]
      rw [if_neg (by simp [hd]), if_neg (by simp [hc])]
      intro hEq
      exact ht (strAppendCancel "no-number|" _ _ hEq.symm)
    simp [dedupeLeis, dedupGo, hkey]

def leiA : LeiStructure :=
  ⟨"Lei nº 10, de 2020", "10", "", none, some ⟨2020, 0, 1⟩, none, none, []⟩

def leiB : LeiStructure :=
  ⟨"LEI Nº 1.0", "1.0", "", none, some ⟨2020, 0, 1⟩, none, none, []⟩

def leiC : LeiStructure :=
  ⟨"titulo alfa", "s/n", "", none, none, none, none, []⟩

def leiD : LeiStructure :=
  ⟨"titulo beta", "s/n", "", none, none, none, none, []⟩

theorem c4_dedup_witness :
    digitsOnly leiA.numero ≠ "" ∧
    digitsOnly leiB.numero = digitsOnly leiA.numero ∧
    upperStr (jsTrim leiC.titulo) ≠ upperStr (jsTrim leiD.titulo) ∧
    dedupeLeis [leiA, leiB, leiC] = firstPerKey [leiA, leiB, leiC] ∧
    dedupeLeis [leiA, leiB] = [leiA] ∧
    dedupeLeis [leiC, leiD] = [leiC, leiD] := by
  have h := c4_dedup [leiA, leiB, leiC] leiA leiB leiC leiD
    (by decide) (by decide) (by decide) (by decide) (by decide) (by decide)
  exact ⟨by decide, by decide, by decide, h.1, h.2.1, h.2.2⟩

/-! ## Claim C5: preamble lines before the first header. -/

/-- C5, counterexample: the lines before the first autógrafo header are
closed as a block of their own; they are not merged into the block of the
header that follows them. -/
theorem c5_claim_false :
    splitByHeaderPattern preambleDoc =
      ["intro", "Autógrafo de Lei nº 10, de 2020\ncorpo",
       "Autógrafo de Lei nº 11, de 2020\ncorpo2"] ∧
    (splitByHeaderPattern preambleDoc).head? = some "intro" := by
  exact ⟨by decide, by decide⟩

/-! ## Claim C6: the two-pass fallback trigger. -/

/-- C6, counterexample: a header-less document whose only titles are two
draft-complementary-law lines is returned as a single block: the fallback
trigger counts only the ordinary-law, complementary-law and resolution
patterns, and none of them matches a Projeto de Lei Complementar line. -/
theorem c6_claim_false :
    splitByHeaderPattern plcDoc = [plcDoc] ∧
    (splitByHeaderPattern plcDoc).length ≠ 2 := by
  exact ⟨by decide, by decide⟩

/-- C6, amended: the title rescan happens exactly when the header pass
left at most one non-empty block and more than one raw line matches one of
the three counted title patterns (ordinary law, complementary law,
resolution); the rescan itself then splits on the full set of seven title
patterns, as the two draft-complementary-law blocks show. -/
theorem c6_fallback_trigger (lines : List String)
    (hb : (byHeaderOf lines).length ≤ 1)
    (ht : titleCountOf lines > 1) :
    splitByHeaderLines lines = splitTitleLines lines ∧
    splitByTitleSections plcDoc =
      ["Projeto de Lei Complementar Nº 001/2015\nArt. 1º primeiro",
       "Projeto de Lei Complementar Nº 002/2015\nArt. 1º segundo"] := by
  constructor
  · unfold splitByHeaderLines
    rw [if_pos hb, if_pos ht]
  · decide

theorem c6_fallback_trigger_witness :
    (byHeaderOf (splitNl leiDoc)).length ≤ 1 ∧
    titleCountOf (splitNl leiDoc) > 1 ∧
    splitByHeaderLines (splitNl leiDoc) = splitTitleLines (splitNl leiDoc) :=
  ⟨by decide, by decide,
   (c6_fallback_trigger (splitNl leiDoc) (by decide) (by decide)).1⟩

/-! ## Claim C7: the fallback title. -/

/-- C7, counterexample: on an input where no line yields a title, the Act
delivered by processExtractedText carries the literal default título
rather than the caller-supplied source identifier: the parser has already
replaced the empty title with its own sentinel, so the filename fallback
of the service is unreachable. -/
theorem c7_claim_false :
    (∀ l ∈ linesOf (cleanText "Art. 1º alpha"), extractTitleAndNumber l = none) ∧
    (processExtractedText "Art. 1º alpha" "doc.docx").titulo ≠ "doc.docx" ∧
    (processExtractedText "Art. 1º alpha" "doc.docx").titulo = "Título não identificado" := by
  refine ⟨by decide, by decide, by decide⟩

/-! ## Claim C8: chapter deduplication. -/

/-- The chapter-creation loop never emits two chapters with the same key,
and never emits a key it was told is already seen. -/
theorem chaptersGoKeys (arts : List ArtigoStructure) :
    ∀ seen : List String,
      ((chaptersGo arts seen).map capKey).Nodup ∧
      ∀ k ∈ (chaptersGo arts seen).map capKey, ¬ k ∈ seen := by
  induction arts with
  | nil => intro seen; simp [chaptersGo]
  | cons art rest ih =>
    intro seen
    cases hc : art.capitulo with
    | none =>
      rw [show chaptersGo (art :: rest) seen = chaptersGo rest seen by
        simp [chaptersGo, hc]]
      exact ih seen
    | some cap =>
      by_cases hs : capKey cap ∈ seen
      · rw [show chaptersGo (art :: rest) seen = chaptersGo rest seen by
          simp [chaptersGo, hc, hs]]
        exact ih seen
      · rw [show chaptersGo (art :: rest) seen =
              cap :: chaptersGo rest (capKey cap :: seen) by
          simp [chaptersGo, hc, hs]]
        have hrec := ih (capKey cap :: seen)
        simp only [List.map_cons, List.nodup_cons]
        refine ⟨⟨?_, hrec.1⟩, ?_⟩
        · intro hmem
          exact (hrec.2 _ hmem) (List.mem_cons_self _ _)
        · intro k hk
          rcases List.mem_cons.mp hk with hk1 | hk2
          · rw [hk1]; exact hs
          · intro hkSeen
            exact (hrec.2 _ hk2) (List.mem_cons_of_mem _ hkSeen)

/-- C8, amended: chapters are deduplicated by the triple of sequence
index, ordinal label and uppercased name (the created chapters always
carry pairwise distinct keys), but a repeated identical chapter heading
is assigned a fresh sequence index by the parser and therefore creates a
second chapter: only articles sharing one heading occurrence share a
chapter row. -/
theorem c8_chapter_dedup :
    (∀ lei : LeiStructure, ((chaptersCreated lei).map capKey).Nodup) ∧
    (chaptersCreated (parseHierarchicalText (cleanText chapterRepeatDoc))).map
      (fun c => (c.ordem, c.numero, c.nome)) =
      [(1, some "I", some "GERAL"), (2, some "I", some "GERAL")] := by
  constructor
  · intro lei
    exact (chaptersGoKeys lei.artigos []).1
  · decide

/-- C8, counterexample: the same chapter heading repeated verbatim gives
the two articles chapters with equal label and name, and saving the Act
creates two chapter rows, not one. -/
theorem c8_claim_false :
    ((parseHierarchicalText (cleanText chapterRepeatDoc)).artigos.map
       (fun a => a.capitulo.map (fun c => (c.numero, c.nome))) =
       [some (some "I", some "GERAL"), some (some "I", some "GERAL")]) ∧
    (chaptersCreated (parseHierarchicalText (cleanText chapterRepeatDoc))).length = 2 := by
  exact ⟨by decide, by decide⟩

/-! ## Claim C9: blank input. -/

/-- C9, amended: blank or whitespace-only extracted text makes the
document pipeline raise the extraction error; it does not return an empty
Act sequence. -/
theorem c9_blank_raises (s filename : String) (h : jsTrim s = "") :
    processWordDocumentMultipleText s filename =
      Except.error "Não foi possível extrair texto do documento" := by
  unfold processWordDocumentMultipleText
  rw [if_pos h]

theorem c9_blank_raises_witness :
    jsTrim "   " = "" ∧
    processWordDocumentMultipleText "   " "doc.docx" =
      Except.error "Não foi possível extrair texto do documento" :=
  ⟨by decide, c9_blank_raises "   " "doc.docx" (by decide)⟩

/-- C9, counterexample: on whitespace-only input the pipeline does not
return the empty Act sequence the claim promises; it raises. -/
theorem c9_claim_false :
    processWordDocumentMultipleText "   " "doc.docx" ≠
      Except.ok ([] : List LeiStructure) := by
  have h : processWordDocumentMultipleText "   " "doc.docx" =
      Except.error "Não foi possível extrair texto do documento" := rfl
  rw [h]
  intro hEq
  exact Except.noConfusion hEq

/-! ## Claim C7: the fallback title, general form.

No branch of the line loop other than the title branch ever writes the
title or the number, so when no line yields a title both stay empty and
the finalize defaults apply. -/

theorem closeAli_pres (s : ParseState) :
    (closeAli s).titulo = s.titulo ∧ (closeAli s).numero = s.numero := by
  unfold closeAli
  repeat' split
  all_goals exact ⟨rfl, rfl⟩

theorem closeInc_pres (s : ParseState) :
    (closeInc s).titulo = s.titulo ∧ (closeInc s).numero = s.numero := by
  unfold closeInc
  repeat' split
  all_goals exact ⟨rfl, rfl⟩

theorem closePar_pres (s : ParseState) :
    (closePar s).titulo = s.titulo ∧ (closePar s).numero = s.numero := by
  unfold closePar
  repeat' split
  all_goals exact ⟨rfl, rfl⟩

theorem closeArt_pres (s : ParseState) :
    (closeArt s).titulo = s.titulo ∧ (closeArt s).numero = s.numero := by
  unfold closeArt
  repeat' split
  all_goals exact ⟨rfl, rfl⟩

theorem closeAll_pres (s : ParseState) :
    (closeAll s).titulo = s.titulo ∧ (closeAll s).numero = s.numero := by
  unfold closeAll
  refine ⟨?_, ?_⟩
  · rw [(closeArt_pres _).1, (closePar_pres _).1, (closeInc_pres _).1,
      (closeAli_pres _).1]
  · rw [(closeArt_pres _).2, (closePar_pres _).2, (closeInc_pres _).2,
      (closeAli_pres _).2]

theorem contLine_pres (s : ParseState) (l : String) :
    (contLine s l).titulo = s.titulo ∧ (contLine s l).numero = s.numero := by
  unfold contLine
  repeat' split
  all_goals exact ⟨rfl, rfl⟩

theorem stItem_pres (s : ParseState) (l : String) :
    (stItem s l).titulo = s.titulo ∧ (stItem s l).numero = s.numero := by
  unfold stItem
  repeat' split
  all_goals first
    | exact contLine_pres s l
    | exact ⟨rfl, rfl⟩

theorem pushAlinea_pres (s1 : ParseState) (g1 g2 : String) :
    (pushAlinea s1 g1 g2).titulo = s1.titulo ∧
    (pushAlinea s1 g1 g2).numero = s1.numero := by
  unfold pushAlinea
  repeat' split
  all_goals exact ⟨rfl, rfl⟩

theorem pushParagrafo_pres (s1 : ParseState) (og1 : Option String) (g2 : String) :
    (pushParagrafo s1 og1 g2).titulo = s1.titulo ∧
    (pushParagrafo s1 og1 g2).numero = s1.numero := by
  unfold pushParagrafo
  repeat' split
  all_goals exact ⟨rfl, rfl⟩

theorem stAlinea_pres (s : ParseState) (l : String) :
    (stAlinea s l).titulo = s.titulo ∧ (stAlinea s l).numero = s.numero := by
  unfold stAlinea
  repeat' split
  all_goals first
    | exact stItem_pres s l
    | exact ⟨(pushAlinea_pres (closeAli s) _ _).1.trans (closeAli_pres s).1,
             (pushAlinea_pres (closeAli s) _ _).2.trans (closeAli_pres s).2⟩

theorem stInciso_pres (s : ParseState) (l : String) :
    (stInciso s l).titulo = s.titulo ∧ (stInciso s l).numero = s.numero := by
  have hIA : (closeInc (closeAli s)).titulo = s.titulo ∧
      (closeInc (closeAli s)).numero = s.numero :=
    ⟨(closeInc_pres _).1.trans (closeAli_pres s).1,
     (closeInc_pres _).2.trans (closeAli_pres s).2⟩
  unfold stInciso
  repeat' split
  all_goals first
    | exact stAlinea_pres s l
    | exact hIA

theorem stParagrafo_pres (s : ParseState) (l : String) :
    (stParagrafo s l).titulo = s.titulo ∧ (stParagrafo s l).numero = s.numero := by
  have hPIA : (closePar (closeInc (closeAli s))).titulo = s.titulo ∧
      (closePar (closeInc (closeAli s))).numero = s.numero :=
    ⟨(closePar_pres _).1.trans ((closeInc_pres _).1.trans (closeAli_pres s).1),
     (closePar_pres _).2.trans ((closeInc_pres _).2.trans (closeAli_pres s).2)⟩
  unfold stParagrafo
  repeat' split
  all_goals first
    | exact stInciso_pres s l
    | exact ⟨(pushParagrafo_pres (closePar (closeInc (closeAli s))) _ _).1.trans hPIA.1,
             (pushParagrafo_pres (closePar (closeInc (closeAli s))) _ _).2.trans hPIA.2⟩

theorem stArtigo_pres (s : ParseState) (l : String) :
    (stArtigo s l).titulo = s.titulo ∧ (stArtigo s l).numero = s.numero := by
  unfold stArtigo
  repeat' split
  all_goals first
    | exact stParagrafo_pres s l
    | exact ⟨(closeAll_pres s).1, (closeAll_pres s).2⟩

theorem stCapitulo_pres (s : ParseState) (l : String) :
    (stCapitulo s l).titulo = s.titulo ∧ (stCapitulo s l).numero = s.numero := by
  unfold stCapitulo
  repeat' split
  all_goals first
    | exact stArtigo_pres s l
    | exact ⟨(closeAll_pres s).1, (closeAll_pres s).2⟩

theorem stEmenta_pres (s : ParseState) (l : String) :
    (stEmenta s l).titulo = s.titulo ∧ (stEmenta s l).numero = s.numero := by
  unfold stEmenta
  split
  · exact ⟨rfl, rfl⟩
  · exact stCapitulo_pres s l

theorem step_pres (s : ParseState) (l : String)
    (h : s.titulo = "" → extractTitleAndNumber l = none) :
    (step s l).titulo = s.titulo ∧ (step s l).numero = s.numero := by
  have hT : (if s.titulo = "" then extractTitleAndNumber l else none) = none := by
    by_cases h0 : s.titulo = ""
    · rw [if_pos h0]; exact h h0
    · rw [if_neg h0]
  unfold step
  rw [hT]
  exact stEmenta_pres s l

theorem foldl_no_title (lines : List String) :
    ∀ s : ParseState,
      (∀ l ∈ lines, extractTitleAndNumber l = none) →
      s.titulo = "" → s.numero = "" →
      (List.foldl step s lines).titulo = "" ∧
      (List.foldl step s lines).numero = "" := by
  induction lines with
  | nil => intro s _ h1 h2; exact ⟨h1, h2⟩
  | cons l rest ih =>
    intro s hall h1 h2
    simp only [List.foldl_cons]
    have hp := step_pres s l (fun _ => hall l (List.mem_cons_self _ _))
    exact ih (step s l) (fun x hx => hall x (List.mem_cons_of_mem _ hx))
      (hp.1.trans h1) (hp.2.trans h2)

/-- C7, amended: when no line of the normalized input yields a title, the
Act delivered by processExtractedText carries the literal parser defaults
Título não identificado and Número não identificado (the filename
fallback of the service is dead code, since the parser default is a
non-empty string), and an Act is still returned. -/
theorem c7_default_title (x filename : String)
    (h : ∀ l ∈ linesOf (cleanText x), extractTitleAndNumber l = none) :
    (processExtractedText x filename).titulo = "Título não identificado" ∧
    (processExtractedText x filename).numero = "Número não identificado" := by
  have hf := foldl_no_title (linesOf (cleanText x)) initState h rfl rfl
  have hc := closeAll_pres (List.foldl step initState (linesOf (cleanText x)))
  have hfin1 : (parseHierarchicalText (cleanText x)).titulo =
      "Título não identificado" := by
    unfold parseHierarchicalText finalize
    dsimp only []
    rw [hc.1, hf.1, if_pos rfl]
  have hfin2 : (parseHierarchicalText (cleanText x)).numero =
      "Número não identificado" := by
    unfold parseHierarchicalText finalize
    dsimp only []
    rw [hc.2, hf.2, if_pos rfl]
  constructor
  · unfold processExtractedText
    dsimp only []
    rw [hfin1, if_neg (by decide)]
  · unfold processExtractedText
    dsimp only []
    rw [hfin2, if_neg (by decide)]

theorem c7_default_title_witness :
    (∀ l ∈ linesOf (cleanText "Art. 1º alpha"), extractTitleAndNumber l = none) ∧
    (processExtractedText "Art. 1º alpha" "meu.docx").titulo =
      "Título não identificado" ∧
    (processExtractedText "Art. 1º alpha" "meu.docx").numero =
      "Número não identificado" :=
  ⟨by decide,
   (c7_default_title "Art. 1º alpha" "meu.docx" (by decide)).1,
   (c7_default_title "Art. 1º alpha" "meu.docx" (by decide)).2⟩

/-! ## Claim C10: structural markers with no trailing text.

The alinea and item branches do guard on a non-empty second capture, but
the inciso branch does not, and it is tried first: a bare clause marker
whose letter is one of the roman-numeral letters c, d, i, l, m, v, x (in
either case) matches the subsection pattern and opens a new empty
Subsection instead of falling through to the continuation rule. -/

/-- C10, amended: an item-marker line whose captured text is empty, and a
clause-marker line whose captured text is empty and whose letter is not
matched by the subsection pattern (it is not a roman-numeral letter),
create no node even with the required parent open: the alinea and item
branch conditions require the captured text to be non-empty, so the line
falls through to the continuation rule and is appended to the deepest
open node.  A roman-letter clause marker instead opens a new Subsection,
as the counterexample shows. -/
theorem c10_empty_marker (s : ParseState) (l : String)
    (ht : s.titulo = "" → extractTitleAndNumber l = none)
    (hcap : capituloM l = none) (hart : artigoM l = none)
    (hpar : paragrafoM l = none) (hinc : incisoM l = none)
    (hali : ∃ c, alineaM l = some (c, ""))
    (_hopen : s.curInc.isSome) (hitem : itemM l = none)
    (s2 : ParseState) (l2 : String)
    (ht2 : s2.titulo = "" → extractTitleAndNumber l2 = none)
    (hcap2 : capituloM l2 = none) (hart2 : artigoM l2 = none)
    (hpar2 : paragrafoM l2 = none) (hinc2 : incisoM l2 = none)
    (hali2 : alineaM l2 = none)
    (hitem2 : ∃ d, itemM l2 = some (d, ""))
    (_hopen2 : s2.curAli.isSome) :
    step s l = contLine s l ∧ step s2 l2 = contLine s2 l2 := by
  constructor
  · obtain ⟨c, hc⟩ := hali
    have hT : (if s.titulo = "" then extractTitleAndNumber l else none) = none := by
      by_cases h0 : s.titulo = ""
      · rw [if_pos h0]; exact ht h0
      · rw [if_neg h0]
    have hstruct : isStructuralElement l = true := by
      simp [isStructuralElement, hc]
    unfold step
    rw [hT]
    show stEmenta s l = contLine s l
    unfold stEmenta
    rw [if_neg (by simp [hstruct])]
    unfold stCapitulo
    rw [hcap]
    show stArtigo s l = contLine s l
    unfold stArtigo
    rw [hart]
    show stParagrafo s l = contLine s l
    unfold stParagrafo
    rw [hpar]
    show stInciso s l = contLine s l
    unfold stInciso
    rw [hinc]
    show stAlinea s l = contLine s l
    simp [stAlinea, hc, stItem, hitem]
  · obtain ⟨d, hd⟩ := hitem2
    have hT : (if s2.titulo = "" then extractTitleAndNumber l2 else none) = none := by
      by_cases h0 : s2.titulo = ""
      · rw [if_pos h0]; exact ht2 h0
      · rw [if_neg h0]
    have hstruct : isStructuralElement l2 = true := by
      simp [isStructuralElement, hd]
    unfold step
    rw [hT]
    show stEmenta s2 l2 = contLine s2 l2
    unfold stEmenta
    rw [if_neg (by simp [hstruct])]
    unfold stCapitulo
    rw [hcap2]
    show stArtigo s2 l2 = contLine s2 l2
    unfold stArtigo
    rw [hart2]
    show stParagrafo s2 l2 = contLine s2 l2
    unfold stParagrafo
    rw [hpar2]
    show stInciso s2 l2 = contLine s2 l2
    unfold stInciso
    rw [hinc2]
    show stAlinea s2 l2 = contLine s2 l2
    simp [stAlinea, hali2, stItem, hd]

def artEx : ArtigoStructure := ⟨"1º", "texto", 1, [], [], none⟩

def incEx : IncisoStructure := ⟨"I", "um", 1, []⟩

def aliEx : AlineaStructure := ⟨"a", "dois", 1, []⟩

/-- A state with an open inciso (parent required by the clause branch). -/
def stateIncOpen : ParseState :=
  ⟨"T", "N", "E", none, none, [], some artEx, none,
   some (incEx, IncAttach.toArt), none, none, 0⟩

/-- A state with an open alinea (parent required by the item branch). -/
def stateAliOpen : ParseState :=
  ⟨"T", "N", "E", none, none, [], some artEx, none,
   some (incEx, IncAttach.toArt), some aliEx, none, 0⟩

/-- C10, counterexample: with a subsection open, the bare clause-marker
line consisting of the letter c and a closing parenthesis does not fall
through to the continuation rule: the subsection pattern matches it first
and, having no emptiness guard, opens a new Subsection with label c,
empty text and the next sequence index, folding the previous subsection
into the article. -/
theorem c10_claim_false :
    step stateIncOpen "c)" ≠ contLine stateIncOpen "c)" ∧
    (step stateIncOpen "c)").curInc =
      some (⟨"c", "", 2, []⟩, IncAttach.toArt) ∧
    (step stateIncOpen "c)").curArt =
      some ⟨"1º", "texto", 1, [], [⟨"I", "um", 1, []⟩], none⟩ := by
  exact ⟨by decide, by decide, by decide⟩

theorem c10_empty_marker_witness :
    step stateIncOpen "a)" = contLine stateIncOpen "a)" ∧
    step stateAliOpen "1." = contLine stateAliOpen "1." :=
  c10_empty_marker stateIncOpen "a)"
    (fun h0 => absurd h0 (by decide)) (by decide) (by decide) (by decide)
    (by decide) ⟨"a", by decide⟩ (by decide) (by decide)
    stateAliOpen "1."
    (fun h0 => absurd h0 (by decide)) (by decide) (by decide) (by decide)
    (by decide) (by decide) ⟨"1", by decide⟩ (by decide)

/-! ## Claim C5, general form: the preamble before the first header. -/

theorem jsTrimChars_eq_nil_iff (m : List Char) :
    jsTrimChars m = [] ↔ ∀ c ∈ m, isWs c = true := by
  unfold jsTrimChars
  rw [List.reverse_eq_nil_iff, List.dropWhile_eq_nil_iff]
  constructor
  · intro h c hc
    have hsplit : c ∈ m.takeWhile isWs ++ m.dropWhile isWs := by
      rw [List.takeWhile_append_dropWhile]
      exact hc
    rcases List.mem_append.mp hsplit with h1 | h2
    · exact List.mem_takeWhile_imp h1
    · exact h c (List.mem_reverse.mpr h2)
  · intro h c hc
    exact h c ((List.dropWhile_sublist isWs).mem (List.mem_reverse.mp hc))

theorem mem_joinNl (cur : List String) (l : String) (c : Char)
    (hl : l ∈ cur) (hc : c ∈ l.data) : c ∈ (joinNl cur).data := by
  induction cur with
  | nil => cases hl
  | cons s rest ih =>
    rcases List.mem_cons.mp hl with h1 | h2
    · subst h1
      cases rest with
      | nil => simpa [joinNl] using hc
      | cons t ts =>
        show c ∈ (l ++ "\n" ++ joinNl (t :: ts)).data
        rw [String.data_append, String.data_append]
        exact List.mem_append_left _ (List.mem_append_left _ hc)
    · cases rest with
      | nil => cases h2
      | cons t ts =>
        show c ∈ (s ++ "\n" ++ joinNl (t :: ts)).data
        rw [String.data_append]
        exact List.mem_append_right _ (ih h2)

theorem jsTrim_joinNl_ne (cur : List String) (w : String)
    (hw : w ∈ cur) (hne : jsTrim w ≠ "") : jsTrim (joinNl cur) ≠ "" := by
  have h1 : ¬ ∀ c ∈ w.data, isWs c = true := by
    intro hall
    apply hne
    have hnil : jsTrimChars w.data = [] := (jsTrimChars_eq_nil_iff _).mpr hall
    unfold jsTrim
    rw [hnil]
  push_neg at h1
  obtain ⟨c, hcmem, hcws⟩ := h1
  intro hEq
  have h2 : ∀ d ∈ (joinNl cur).data, isWs d = true := by
    apply (jsTrimChars_eq_nil_iff _).mp
    have hdata := congrArg String.data hEq
    simpa [jsTrim] using hdata
  exact hcws (h2 c (mem_joinNl cur w c hw hcmem))

/-- Lines that never match the header recognizer just accumulate. -/
theorem splitHeaderGo_skip : ∀ (pre : List String),
    (∀ p ∈ pre, autografoM p = none) →
    ∀ rest cur num acc,
      splitHeaderGo (pre ++ rest) cur num acc =
        splitHeaderGo rest (cur ++ pre) num acc := by
  intro pre
  induction pre with
  | nil => intro _ rest cur num acc; simp
  | cons p pre' ih =>
    intro h1 rest cur num acc
    have hp : autografoM p = none := h1 p (List.mem_cons_self _ _)
    rw [List.cons_append]
    rw [show splitHeaderGo (p :: (pre' ++ rest)) cur num acc =
          splitHeaderGo (pre' ++ rest) (cur ++ [p]) num acc from by
      simp [splitHeaderGo, hp]]
    rw [ih (fun q hq => h1 q (List.mem_cons_of_mem _ hq)) rest (cur ++ [p]) num acc]
    rw [List.append_assoc]
    rfl

/-- The accumulator of the section loop is a prefix of its output. -/
theorem splitHeaderGo_acc : ∀ (ls cur : List String) (num : Option String)
    (acc : List String),
    splitHeaderGo ls cur num acc = acc ++ splitHeaderGo ls cur num [] := by
  intro ls
  induction ls with
  | nil =>
    intro cur num acc
    by_cases h : cur.isEmpty <;> simp [splitHeaderGo, h]
  | cons l rest ih =>
    intro cur num acc
    cases hm : autografoM l with
    | none =>
      rw [show splitHeaderGo (l :: rest) cur num acc =
            splitHeaderGo rest (cur ++ [l]) num acc from by simp [splitHeaderGo, hm]]
      rw [show splitHeaderGo (l :: rest) cur num [] =
            splitHeaderGo rest (cur ++ [l]) num [] from by simp [splitHeaderGo, hm]]
      exact ih _ _ _
    | some pr =>
      obtain ⟨cap, flag⟩ := pr
      by_cases hce : cur.isEmpty
      · rw [show splitHeaderGo (l :: rest) cur num acc =
              splitHeaderGo rest [l]
                (if digitsOnly cap = "" then none else some (digitsOnly cap)) acc from by
            simp [splitHeaderGo, hm, hce]]
        rw [show splitHeaderGo (l :: rest) cur num [] =
              splitHeaderGo rest [l]
                (if digitsOnly cap = "" then none else some (digitsOnly cap)) [] from by
            simp [splitHeaderGo, hm, hce]]
        exact ih _ _ _
      · by_cases hsame : (digitsOnly cap ≠ "" ∧ num = some (digitsOnly cap))
        · rw [show splitHeaderGo (l :: rest) cur num acc =
                splitHeaderGo rest (cur ++ [l]) num acc from by
              simp [splitHeaderGo, hm, hce, hsame]]
          rw [show splitHeaderGo (l :: rest) cur num [] =
                splitHeaderGo rest (cur ++ [l]) num [] from by
              simp [splitHeaderGo, hm, hce, hsame]]
          exact ih _ _ _
        · rw [show splitHeaderGo (l :: rest) cur num acc =
                splitHeaderGo rest [l]
                  (if digitsOnly cap = "" then none else some (digitsOnly cap))
                  (acc ++ [jsTrim (joinNl cur)]) from by
              simp [splitHeaderGo, hm, hce, hsame]]
          rw [show splitHeaderGo (l :: rest) cur num [] =
                splitHeaderGo rest [l]
                  (if digitsOnly cap = "" then none else some (digitsOnly cap))
                  ([] ++ [jsTrim (joinNl cur)]) from by
              simp [splitHeaderGo, hm, hce, hsame]]
          rw [List.nil_append]
          rw [ih [l] (if digitsOnly cap = "" then none else some (digitsOnly cap))
            (acc ++ [jsTrim (joinNl cur)])]
          rw [ih [l] (if digitsOnly cap = "" then none else some (digitsOnly cap))
            [jsTrim (joinNl cur)]]
          rw [List.append_assoc]

/-- A block list built from a current block containing a line with
non-blank trim always yields at least one non-empty section, provided
every later header line also has non-blank trim. -/
theorem splitHeaderGo_nonempty : ∀ (ls cur : List String) (num : Option String),
    cur ≠ [] → (∃ w ∈ cur, jsTrim w ≠ "") →
    (∀ l ∈ ls, (autografoM l).isSome → jsTrim l ≠ "") →
    ∃ x ∈ splitHeaderGo ls cur num [], x ≠ "" := by
  intro ls
  induction ls with
  | nil =>
    intro cur num hcur hex _
    obtain ⟨w, hw, hwne⟩ := hex
    have hce : cur.isEmpty = false := by
      cases cur with
      | nil => cases hcur rfl
      | cons a t => rfl
    rw [show splitHeaderGo [] cur num [] = [jsTrim (joinNl cur)] from by
      simp [splitHeaderGo, hce]]
    exact ⟨jsTrim (joinNl cur), List.mem_singleton.mpr rfl,
      jsTrim_joinNl_ne cur w hw hwne⟩
  | cons l rest ih =>
    intro cur num hcur hex hall
    have hall' : ∀ q ∈ rest, (autografoM q).isSome → jsTrim q ≠ "" :=
      fun q hq => hall q (List.mem_cons_of_mem _ hq)
    cases hm : autografoM l with
    | none =>
      rw [show splitHeaderGo (l :: rest) cur num [] =
            splitHeaderGo rest (cur ++ [l]) num [] from by simp [splitHeaderGo, hm]]
      obtain ⟨w, hw, hwne⟩ := hex
      exact ih (cur ++ [l]) num (by simp)
        ⟨w, List.mem_append_left _ hw, hwne⟩ hall'
    | some pr =>
      obtain ⟨cap, flag⟩ := pr
      have hce : cur.isEmpty = false := by
        cases cur with
        | nil => cases hcur rfl
        | cons a t => rfl
      by_cases hsame : (digitsOnly cap ≠ "" ∧ num = some (digitsOnly cap))
      · rw [show splitHeaderGo (l :: rest) cur num [] =
              splitHeaderGo rest (cur ++ [l]) num [] from by
            simp [splitHeaderGo, hm, hce, hsame]]
        obtain ⟨w, hw, hwne⟩ := hex
        exact ih (cur ++ [l]) num (by simp)
          ⟨w, List.mem_append_left _ hw, hwne⟩ hall'
      · rw [show splitHeaderGo (l :: rest) cur num [] =
              splitHeaderGo rest [l]
                (if digitsOnly cap = "" then none else some (digitsOnly cap))
                ([] ++ [jsTrim (joinNl cur)]) from by
            simp [splitHeaderGo, hm, hce, hsame]]
        rw [List.nil_append]
        rw [splitHeaderGo_acc rest [l]
          (if digitsOnly cap = "" then none else some (digitsOnly cap))
          [jsTrim (joinNl cur)]]
        obtain ⟨w, hw, hwne⟩ := hex
        exact ⟨jsTrim (joinNl cur),
          List.mem_append_left _ (List.mem_singleton.mpr rfl),
          jsTrim_joinNl_ne cur w hw hwne⟩

/-- C5, amended: when one or more non-header lines with non-blank content
precede the first autógrafo header, the segmenter closes them as a block
of their own: the first returned block is exactly the trimmed preamble,
and the header opens the second block. -/
theorem c5_preamble_separate (pre : List String) (hline : String)
    (rest : List String)
    (hpre : pre ≠ [])
    (h1 : ∀ p ∈ pre, autografoM p = none)
    (h2 : (autografoM hline).isSome)
    (h3 : jsTrim (joinNl pre) ≠ "")
    (h4 : jsTrim hline ≠ "")
    (h5 : ∀ l ∈ rest, (autografoM l).isSome → jsTrim l ≠ "") :
    ∃ S, splitByHeaderLines (pre ++ hline :: rest) =
        jsTrim (joinNl pre) :: S ∧ S ≠ [] := by
  obtain ⟨pr, hm⟩ := Option.isSome_iff_exists.mp h2
  obtain ⟨cap, flag⟩ := pr
  have hcepre : pre.isEmpty = false := by
    cases pre with
    | nil => cases hpre rfl
    | cons a t => rfl
  have hsec : splitHeaderGo (pre ++ hline :: rest) [] none [] =
      jsTrim (joinNl pre) :: splitHeaderGo rest [hline]
        (if digitsOnly cap = "" then none else some (digitsOnly cap)) [] := by
    rw [splitHeaderGo_skip pre h1 (hline :: rest) [] none []]
    rw [List.nil_append]
    rw [show splitHeaderGo (hline :: rest) pre none [] =
          splitHeaderGo rest [hline]
            (if digitsOnly cap = "" then none else some (digitsOnly cap))
            ([] ++ [jsTrim (joinNl pre)]) from by
        simp [splitHeaderGo, hm, hcepre]]
    rw [List.nil_append]
    rw [splitHeaderGo_acc rest [hline]
      (if digitsOnly cap = "" then none else some (digitsOnly cap))
      [jsTrim (joinNl pre)]]
    rfl
  have hby : byHeaderOf (pre ++ hline :: rest) =
      jsTrim (joinNl pre) ::
        (splitHeaderGo rest [hline]
          (if digitsOnly cap = "" then none else some (digitsOnly cap))
          []).filter (fun s => decide (s ≠ "")) := by
    unfold byHeaderOf
    rw [hsec, List.filter_cons]
    simp [h3]
  have htail := splitHeaderGo_nonempty rest [hline]
    (if digitsOnly cap = "" then none else some (digitsOnly cap))
    (by simp) ⟨hline, List.mem_singleton.mpr rfl, h4⟩ h5
  obtain ⟨x, hx, hxne⟩ := htail
  have hxf : x ∈ (splitHeaderGo rest [hline]
      (if digitsOnly cap = "" then none else some (digitsOnly cap))
      []).filter (fun s => decide (s ≠ "")) :=
    List.mem_filter.mpr ⟨hx, by simpa using hxne⟩
  have hSne : (splitHeaderGo rest [hline]
      (if digitsOnly cap = "" then none else some (digitsOnly cap))
      []).filter (fun s => decide (s ≠ "")) ≠ [] := by
    intro hnil
    rw [hnil] at hxf
    cases hxf
  have hlen : ¬ (byHeaderOf (pre ++ hline :: rest)).length ≤ 1 := by
    rw [hby]
    have hpos := List.length_pos.mpr hSne
    simp only [List.length_cons]
    omega
  refine ⟨_, ?_, hSne⟩
  rw [show splitByHeaderLines (pre ++ hline :: rest) =
        byHeaderOf (pre ++ hline :: rest) from by
    unfold splitByHeaderLines
    rw [if_neg hlen]]
  exact hby

theorem c5_preamble_separate_witness :
    ∃ S, splitByHeaderLines
        (["intro"] ++ "Autógrafo de Lei nº 10, de 2020" ::
          ["corpo", "Autógrafo de Lei nº 11, de 2020", "corpo2"]) =
      jsTrim (joinNl ["intro"]) :: S ∧ S ≠ [] :=
  c5_preamble_separate ["intro"] "Autógrafo de Lei nº 10, de 2020"
    ["corpo", "Autógrafo de Lei nº 11, de 2020", "corpo2"]
    (by decide) (by decide) (by decide) (by decide) (by decide) (by decide)

end ApiCamara
